import Mathlib

set_option maxRecDepth 8192

/-! Shallow embedding of the bgp-fsm sources: the UPDATE message path attribute
operations of protocol/bgp-update-message.cc and the IPv4 routing information
base of src/bgp-rib4.cc.  Classes whose implementation files are absent from
the sources (bgp-path-attrib, bgp-rib.h, the asPathSegsTo4b helper and the
discard body) are modelled from the specification and carry a doc comment
saying so. -/

/-- Path attribute type code of ORIGIN. -/
def ORIGIN : Nat := 1

/-- Path attribute type code of AS_PATH. -/
def AS_PATH : Nat := 2

/-- Path attribute type code of NEXT_HOP. -/
def NEXT_HOP : Nat := 3

/-- Path attribute type code of MULTI_EXIT_DISC. -/
def MULTI_EXIT_DISC : Nat := 4

/-- Path attribute type code of LOCAL_PREF. -/
def LOCAL_PREF : Nat := 5

/-- Path attribute type code of AS4_PATH. -/
def AS4_PATH : Nat := 17

/-- AS_TRANS, the reserved 2-byte placeholder ASN 23456. -/
def AS_TRANS : Nat := 23456

/-- AS path segment kind: AS_SET or AS_SEQUENCE. -/
inductive BgpAsSegmentType where
  | as_set
  | as_sequence
deriving DecidableEq

/-- An AS path segment: kind, ASN width flag and the ordered ASN list, following
the data model of the specification (each segment carries type, asns, is_4b). -/
structure BgpAsPathSegment where
  type : BgpAsSegmentType
  is_4b : Bool
  value : List Nat
deriving DecidableEq

/-- Path attributes as the tagged sum the specification describes; the variants
an operation never inspects are collapsed into the generic constructor. -/
inductive BgpPathAttrib where
  | origin (v : Nat)
  | as_path (is_4b : Bool) (as_paths : List BgpAsPathSegment)
  | nexthop (v : Nat)
  | med (v : Nat)
  | local_pref (v : Nat)
  | as4_path (as4_paths : List BgpAsPathSegment)
  | generic (code : Nat)
deriving DecidableEq

/-- The type code of an attribute, as the C++ type_code member. -/
def BgpPathAttrib.type_code : BgpPathAttrib → Nat
  | .origin _ => ORIGIN
  | .as_path _ _ => AS_PATH
  | .nexthop _ => NEXT_HOP
  | .med _ => MULTI_EXIT_DISC
  | .local_pref _ => LOCAL_PREF
  | .as4_path _ => AS4_PATH
  | .generic c => c

/-- A message attribute list is well formed when no generic attribute usurps the
type code of AS_PATH or AS4_PATH, so that a cast of an attribute found by type
code to its variant cannot fail. -/
def wfAttrs (l : List BgpPathAttrib) : Bool :=
  l.all (fun a => match a with
    | .generic c => !(c == AS_PATH || c == AS4_PATH)
    | _ => true)

/-- The BgpUpdateMessage state the claims touch: the 4-byte ASN mode flag and
the path attribute list. -/
structure BgpUpdateMessage where
  use_4b_asn : Bool
  path_attribute : List BgpPathAttrib
deriving DecidableEq

/-- BgpUpdateMessage::hasAttrib of bgp-update-message.cc. -/
def BgpUpdateMessage.hasAttrib (msg : BgpUpdateMessage) (t : Nat) : Bool :=
  msg.path_attribute.any (fun a => a.type_code == t)

/-- BgpUpdateMessage::getAttrib of bgp-update-message.cc; the C++ throws when the
attribute is absent, here an option result. -/
def BgpUpdateMessage.getAttrib (msg : BgpUpdateMessage) (t : Nat) : Option BgpPathAttrib :=
  msg.path_attribute.find? (fun a => a.type_code == t)

/-- BgpUpdateMessage::addAttrib of bgp-update-message.cc. -/
def BgpUpdateMessage.addAttrib (msg : BgpUpdateMessage) (a : BgpPathAttrib) :
    Bool × BgpUpdateMessage :=
  if msg.hasAttrib a.type_code then (false, msg)
  else (true, { msg with path_attribute := msg.path_attribute ++ [a] })

/-- Erase the first attribute with the given type code, as the loop of
BgpUpdateMessage::dropAttrib. -/
def eraseFirstAttrib : List BgpPathAttrib → Nat → List BgpPathAttrib
  | [], _ => []
  | a :: rest, t => if a.type_code == t then rest else a :: eraseFirstAttrib rest t

/-- BgpUpdateMessage::dropAttrib of bgp-update-message.cc. -/
def BgpUpdateMessage.dropAttrib (msg : BgpUpdateMessage) (t : Nat) :
    Bool × BgpUpdateMessage :=
  if msg.hasAttrib t then
    (true, { msg with path_attribute := eraseFirstAttrib msg.path_attribute t })
  else (false, msg)

/-- BgpUpdateMessage::updateAttribute of bgp-update-message.cc: drop then add. -/
def BgpUpdateMessage.updateAttribute (msg : BgpUpdateMessage) (a : BgpPathAttrib) :
    Bool × BgpUpdateMessage :=
  ((msg.dropAttrib a.type_code).2).addAttrib a

/-- Replace the first attribute with the given type code in place, the picture of
the C++ mutation through the reference getAttrib returns. -/
def setFirstAttrib : List BgpPathAttrib → Nat → BgpPathAttrib → List BgpPathAttrib
  | [], _, _ => []
  | x :: rest, t, a =>
      if x.type_code == t then a :: rest else x :: setFirstAttrib rest t a

/-- Modelled from the spec: BgpAsPathSegment prepend (the bgp-path-attrib files are
not among the sources); the ASN is pushed at the front of the segment value when
the segment length is below 255, otherwise the segment is full and it fails. -/
def BgpAsPathSegment.prepend (seg : BgpAsPathSegment) (asn : Nat) :
    Option BgpAsPathSegment :=
  if seg.value.length < 255 then some { seg with value := asn :: seg.value } else none

/-- Modelled from the spec: attribute level AS_PATH prepend (BgpPathAttribAsPath is
not among the sources): when the leading segment is an AS_SEQUENCE of length below
255 the ASN is pushed at its front, otherwise a new leading AS_SEQUENCE segment
carrying only that ASN is inserted. -/
def asPathPrepend (is4 : Bool) (segs : List BgpAsPathSegment) (asn : Nat) :
    List BgpAsPathSegment :=
  match segs with
  | [] => [⟨.as_sequence, is4, [asn]⟩]
  | s :: rest =>
      if s.type = .as_sequence ∧ s.value.length < 255 then
        { s with value := asn :: s.value } :: rest
      else
        ⟨.as_sequence, is4, [asn]⟩ :: s :: rest

/-- The tail of the 2-byte mode of BgpUpdateMessage::prepend: when an AS4_PATH
attribute is present, prepend prep_asn to it as well. -/
def BgpUpdateMessage.prepend2bAs4 (m1 : BgpUpdateMessage) (prep_asn : Nat) :
    Bool × BgpUpdateMessage :=
  if m1.hasAttrib AS4_PATH then
    match m1.getAttrib AS4_PATH with
    | some (.as4_path segs4) =>
        let pa := setFirstAttrib m1.path_attribute AS4_PATH (.as4_path (asPathPrepend true segs4 prep_asn))
        (true, { m1 with path_attribute := pa })
    | _ => (false, m1)
  else (true, m1)

/-- BgpUpdateMessage::prepend of bgp-update-message.cc, both the 4-byte and the
2-byte mode.  A found AS_PATH or AS4_PATH attribute whose variant is not the one
the C++ downcasts to is answered with failure and no change. -/
def BgpUpdateMessage.prepend (msg : BgpUpdateMessage) (asn : Nat) :
    Bool × BgpUpdateMessage :=
  if msg.use_4b_asn then
    if msg.hasAttrib AS4_PATH then (false, msg)
    else if msg.hasAttrib AS_PATH then
      match msg.getAttrib AS_PATH with
      | some (.as_path true segs) =>
          let pa := setFirstAttrib msg.path_attribute AS_PATH (.as_path true (asPathPrepend true segs asn))
          (true, { msg with path_attribute := pa })
      | _ => (false, msg)
    else
      (true, { msg with path_attribute := msg.path_attribute ++ [.as_path true (asPathPrepend true [] asn)] })
  else
    let prep_asn := if asn ≥ 0xffff then AS_TRANS else asn
    let step1 : Option BgpUpdateMessage :=
      if msg.hasAttrib AS_PATH then
        match msg.getAttrib AS_PATH with
        | some (.as_path false segs) =>
            let pa := setFirstAttrib msg.path_attribute AS_PATH (.as_path false (asPathPrepend false segs prep_asn))
            some { msg with path_attribute := pa }
        | _ => none
      else
        some { msg with path_attribute := msg.path_attribute ++ [.as_path false (asPathPrepend false [] prep_asn)] }
    match step1 with
    | none => (false, msg)
    | some m1 => BgpUpdateMessage.prepend2bAs4 m1 prep_asn

/-- Concatenation of the ASN lists of a segment list. -/
def flattenSegs (segs : List BgpAsPathSegment) : List Nat :=
  (segs.map (fun s => s.value)).flatten

/-- The full_as_path collection loop of BgpUpdateMessage::restoreAsPath: all ASNs
of the AS_SEQUENCE segments, in order. -/
def as4Collect (segs4 : List BgpAsPathSegment) : List Nat :=
  segs4.foldl (fun acc s => if s.type = .as_sequence then acc ++ s.value else acc) []

/-- Drop the maximal suffix of AS_TRANS placeholders. -/
def dropTrailingTrans (l : List Nat) : List Nat :=
  ((l.reverse).dropWhile (fun a => a == AS_TRANS)).reverse

/-- Modelled from the spec: BgpUpdateMessage::asPathSegsTo4b with no argument
(declared in the missing bgp-update-message.h): reinterpret every AS_PATH segment
ASN as a 4-byte value, keeping the segment structure. -/
def BgpUpdateMessage.asPathSegsTo4b (msg : BgpUpdateMessage) : BgpUpdateMessage :=
  match msg.getAttrib AS_PATH with
  | some (.as_path _ segs) =>
      let pa := setFirstAttrib msg.path_attribute AS_PATH (.as_path true (segs.map (fun s => { s with is_4b := true })))
      { msg with path_attribute := pa }
  | _ => msg

/-- Modelled from the spec: BgpUpdateMessage::asPathSegsTo4b with the collected
AS4_PATH ASN list (declared in the missing bgp-update-message.h): the suffix of
the AS_PATH ASN sequence made of AS_TRANS placeholders is replaced by the
collected list; the spec leaves the segment regrouping open, so a single
AS_SEQUENCE segment is produced. -/
def BgpUpdateMessage.asPathSegsTo4bFull (msg : BgpUpdateMessage) (full : List Nat) :
    BgpUpdateMessage :=
  match msg.getAttrib AS_PATH with
  | some (.as_path _ segs) =>
      let pa := setFirstAttrib msg.path_attribute AS_PATH (.as_path true [⟨.as_sequence, true, dropTrailingTrans (flattenSegs segs) ++ full⟩])
      { msg with path_attribute := pa }
  | _ => msg

/-- BgpUpdateMessage::restoreAsPath of bgp-update-message.cc. -/
def BgpUpdateMessage.restoreAsPath (msg : BgpUpdateMessage) :
    Bool × BgpUpdateMessage :=
  if msg.hasAttrib AS_PATH then
    match msg.getAttrib AS_PATH with
    | some (.as_path true _) => (false, msg)
    | some (.as_path false _) =>
        if msg.hasAttrib AS4_PATH then
          match msg.getAttrib AS4_PATH with
          | some (.as4_path segs4) =>
              if segs4.any (fun s => !s.is_4b) then (false, msg)
              else (true, msg.asPathSegsTo4bFull (as4Collect segs4))
          | _ => (false, msg)
        else (true, msg.asPathSegsTo4b)
    | _ => (false, msg)
  else (true, msg)

/-- The inner loop of BgpUpdateMessage::downgradeAsPath building one 2-byte
segment: every ASN of the 4-byte segment is substituted when at least 0xffff and
prepended to the fresh segment, in iteration order. -/
def downgradeSeg (seg : BgpAsPathSegment) : Option BgpAsPathSegment :=
  seg.value.foldlM
    (fun ns asn => ns.prepend (if asn ≥ 0xffff then AS_TRANS else asn))
    (⟨seg.type, false, []⟩ : BgpAsPathSegment)

/-- The outer loop of BgpUpdateMessage::downgradeAsPath: reject a 2-byte segment,
build the parallel 2-byte segment and record the original for AS4_PATH. -/
def downgradeLoop : List BgpAsPathSegment →
    Option (List BgpAsPathSegment × List BgpAsPathSegment)
  | [] => some ([], [])
  | seg :: rest =>
      if !seg.is_4b then none
      else
        match downgradeSeg seg, downgradeLoop rest with
        | some ns, some (a, b) => some (ns :: a, seg :: b)
        | _, _ => none

/-- BgpUpdateMessage::downgradeAsPath of bgp-update-message.cc.  As in the C++,
the is_4b flag of the AS_PATH attribute is left as found: only the segment list
is overwritten. -/
def BgpUpdateMessage.downgradeAsPath (msg : BgpUpdateMessage) :
    Bool × BgpUpdateMessage :=
  if msg.hasAttrib AS_PATH then
    match msg.getAttrib AS_PATH with
    | some (.as_path false _) => (false, msg)
    | some (.as_path true segs) =>
        match downgradeLoop segs with
        | none => (false, msg)
        | some (new_segs, as4_segs) =>
            let m1 := (msg.updateAttribute (.as4_path as4_segs)).2
            let pa := setFirstAttrib m1.path_attribute AS_PATH (.as_path true new_segs)
            (true, { m1 with path_attribute := pa })
    | _ => (false, msg)
  else (true, msg)

/-- The IPv4 prefix: address value and mask length, the two fields of Prefix4
that decide its equality. -/
structure Prefix4 where
  pfx : Nat
  len : Nat
deriving DecidableEq

/-- Route source kind of a RIB entry (SRC_EBGP or SRC_IBGP). -/
inductive BgpRouteSrc where
  | src_ebgp
  | src_ibgp
deriving DecidableEq

/-- A BgpRib4Entry of bgp-rib4.h. -/
structure BgpRib4Entry where
  route : Prefix4
  src_router_id : Nat
  attribs : List BgpPathAttrib
  update_id : Nat
  weight : Int
  src : BgpRouteSrc
  ibgp_peer_asn : Nat
deriving DecidableEq

/-- The BgpRib4 state: the multimap, modelled as the list of its entries in
insertion order, and the update_id counter. -/
structure BgpRib4 where
  rib : List BgpRib4Entry
  update_id : Nat
deriving DecidableEq

/-- One step of the BgpRib4::find_best loop: ignore an entry of another prefix,
take a first matching entry, arbitrate later ones through the selection
function. -/
def bestStep (better : BgpRib4Entry → BgpRib4Entry → Bool) (route : Prefix4)
    (acc : Option BgpRib4Entry) (e : BgpRib4Entry) : Option BgpRib4Entry :=
  if e.route = route then
    match acc with
    | none => some e
    | some cur => some (if better cur e then cur else e)
  else acc

/-- BgpRib4::find_best of bgp-rib4.cc, parametric in the selection function:
better cur e answers whether selectEntry keeps cur against e. -/
def find_best (better : BgpRib4Entry → BgpRib4Entry → Bool)
    (rib : List BgpRib4Entry) (route : Prefix4) : Option BgpRib4Entry :=
  rib.foldl (bestStep better route) none

/-- The entry the withdraw loop leaves in to_remove: the last entry matching the
prefix and the source router id, with its position. -/
def lastMatch : List BgpRib4Entry → Nat → Prefix4 → Option (Nat × BgpRib4Entry)
  | [], _, _ => none
  | e :: rest, s, r =>
      match lastMatch rest s r with
      | some (i, x) => some (i + 1, x)
      | none => if e.route = r ∧ e.src_router_id = s then some (0, e) else none

/-- One step of the replacement computation of the withdraw loop. -/
def replStep (better : BgpRib4Entry → BgpRib4Entry → Bool) (s : Nat) (r : Prefix4)
    (acc : Option BgpRib4Entry) (e : BgpRib4Entry) : Option BgpRib4Entry :=
  if e.route = r ∧ e.src_router_id ≠ s then
    match acc with
    | none => some e
    | some cur => some (if better cur e then cur else e)
  else acc

/-- The replacement computation of the withdraw loop: the best entry for the
prefix among the entries of other sources. -/
def selectRepl (better : BgpRib4Entry → BgpRib4Entry → Bool)
    (rib : List BgpRib4Entry) (s : Nat) (r : Prefix4) : Option BgpRib4Entry :=
  rib.foldl (replStep better s r) none

/-- BgpRib4::withdraw of bgp-rib4.cc.  As in the C++, rib.erase is reached only
in the branch where a replacement entry exists; when the withdrawn entry is the
last one for the prefix the map is left untouched and the pair false, null is
returned. -/
def BgpRib4.withdraw (better : BgpRib4Entry → BgpRib4Entry → Bool)
    (st : BgpRib4) (src_router_id : Nat) (route : Prefix4) :
    BgpRib4 × Bool × Option BgpRib4Entry :=
  match lastMatch st.rib src_router_id route with
  | none => (st, false, none)
  | some (i, tre) =>
      match selectRepl better st.rib src_router_id route with
      | some rep =>
          ({ st with rib := st.rib.eraseIdx i }, true,
            if better rep tre then none else some rep)
      | none => (st, false, none)

/-- The new entry insertPriv builds from its arguments and the current
update_id. -/
def mkEntry (st : BgpRib4) (src_router_id : Nat) (route : Prefix4)
    (attrib : List BgpPathAttrib) (weight : Int) (ibgp_asn : Nat) : BgpRib4Entry :=
  { route := route, src_router_id := src_router_id, attribs := attrib,
    update_id := st.update_id, weight := weight,
    src := if ibgp_asn > 0 then .src_ibgp else .src_ebgp,
    ibgp_peer_asn := ibgp_asn }

/-- BgpRib4::insertPriv of bgp-rib4.cc. -/
def BgpRib4.insertPriv (better : BgpRib4Entry → BgpRib4Entry → Bool)
    (st : BgpRib4) (src_router_id : Nat) (route : Prefix4)
    (attrib : List BgpPathAttrib) (weight : Int) (ibgp_asn : Nat) :
    BgpRib4 × Option BgpRib4Entry :=
  let new_entry : BgpRib4Entry := mkEntry st src_router_id route attrib weight ibgp_asn
  match find_best better st.rib route with
  | some old_best =>
      let rib1 := st.rib.filter (fun e => !(decide (e.route = route) && decide (e.src_router_id = src_router_id)))
      let rib2 := rib1 ++ [new_entry]
      match find_best better rib2 route with
      | none => ({ st with rib := rib2 }, none)
      | some nb =>
          ({ st with rib := rib2 },
            if nb.update_id ≠ old_best.update_id then some nb else none)
  | none =>
      ({ st with rib := st.rib ++ [new_entry] }, some new_entry)

/-- The learned route BgpRib4::insert of bgp-rib4.cc: bump update_id, then
insertPriv. -/
def BgpRib4.insert (better : BgpRib4Entry → BgpRib4Entry → Bool)
    (st : BgpRib4) (src_router_id : Nat) (route : Prefix4)
    (attrib : List BgpPathAttrib) (weight : Int) (ibgp_asn : Nat) :
    BgpRib4 × Option BgpRib4Entry :=
  BgpRib4.insertPriv better { st with update_id := st.update_id + 1 }
    src_router_id route attrib weight ibgp_asn

/-- Modelled from the spec: BgpRib4::discard (its body in bgp-rib4.cc is
commented out and the function falls off its end): remove every entry of the
given source router id and return the prefixes whose best entry changed. -/
def BgpRib4.discard (better : BgpRib4Entry → BgpRib4Entry → Bool)
    (st : BgpRib4) (src_router_id : Nat) : BgpRib4 × List Prefix4 :=
  let rib2 := st.rib.filter (fun e => !decide (e.src_router_id = src_router_id))
  let dropped := (st.rib.filter (fun e => decide (e.src_router_id = src_router_id))).map (fun e => e.route)
  let changed := dropped.dedup.filter (fun p => !decide (find_best better st.rib p = find_best better rib2 p))
  ({ st with rib := rib2 }, changed)

/-- LOCAL_PREF of an entry, 100 when absent. -/
def entryLocalPref (e : BgpRib4Entry) : Nat :=
  match e.attribs.findSome? (fun a => match a with | .local_pref v => some v | _ => none) with
  | some v => v
  | none => 100

/-- ORIGIN of an entry, 0 when absent. -/
def entryOrigin (e : BgpRib4Entry) : Nat :=
  match e.attribs.findSome? (fun a => match a with | .origin v => some v | _ => none) with
  | some v => v
  | none => 0

/-- MULTI_EXIT_DISC of an entry, 0 when absent. -/
def entryMed (e : BgpRib4Entry) : Nat :=
  match e.attribs.findSome? (fun a => match a with | .med v => some v | _ => none) with
  | some v => v
  | none => 0

/-- AS_PATH segments of an entry, empty when absent. -/
def entryAsSegs (e : BgpRib4Entry) : List BgpAsPathSegment :=
  match e.attribs.findSome? (fun a => match a with | .as_path _ s => some s | _ => none) with
  | some s => s
  | none => []

/-- AS_PATH length of an entry: an AS_SET counts one, an AS_SEQUENCE its length. -/
def entryAsPathLen (e : BgpRib4Entry) : Nat :=
  (entryAsSegs e).foldl (fun n s => n + (if s.type = .as_set then 1 else s.value.length)) 0

/-- First neighbor ASN on the AS_PATH of an entry. -/
def entryNeighbor (e : BgpRib4Entry) : Option Nat :=
  (flattenSegs (entryAsSegs e)).head?

/-- Modelled from the spec: the selectEntry tie break order of section 4.5 (the
bgp-rib.h holding selectEntry is not among the sources); answers whether the
first entry is kept against the second. -/
def specBetter (a b : BgpRib4Entry) : Bool :=
  if a.weight ≠ b.weight then decide (b.weight < a.weight)
  else if (decide (a.src_router_id = 0)) ≠ (decide (b.src_router_id = 0)) then decide (a.src_router_id = 0)
  else if entryLocalPref a ≠ entryLocalPref b then decide (entryLocalPref b < entryLocalPref a)
  else if entryAsPathLen a ≠ entryAsPathLen b then decide (entryAsPathLen a < entryAsPathLen b)
  else if entryOrigin a ≠ entryOrigin b then decide (entryOrigin a < entryOrigin b)
  else if entryNeighbor a = entryNeighbor b ∧ entryNeighbor a ≠ none ∧ entryMed a ≠ entryMed b then decide (entryMed a < entryMed b)
  else if a.src ≠ b.src then decide (a.src = .src_ebgp)
  else decide (a.src_router_id ≤ b.src_router_id)

lemma bestStep_isSome_of_acc (better : BgpRib4Entry → BgpRib4Entry → Bool)
    (route : Prefix4) (acc : Option BgpRib4Entry) (e : BgpRib4Entry)
    (h : acc.isSome = true) : (bestStep better route acc e).isSome = true := by
  unfold bestStep
  cases acc with
  | none => simp at h
  | some cur => by_cases hr : e.route = route <;> simp [hr]

lemma bestStep_match (better : BgpRib4Entry → BgpRib4Entry → Bool)
    (route : Prefix4) (acc : Option BgpRib4Entry) (e : BgpRib4Entry)
    (h : e.route = route) : (bestStep better route acc e).isSome = true := by
  unfold bestStep
  cases acc <;> simp [h]

lemma foldl_bestStep_isSome (better : BgpRib4Entry → BgpRib4Entry → Bool)
    (route : Prefix4) (l : List BgpRib4Entry) (acc : Option BgpRib4Entry)
    (h : acc.isSome = true) :
    (l.foldl (bestStep better route) acc).isSome = true := by
  induction l generalizing acc with
  | nil => simpa using h
  | cons e rest ih =>
      simp only [List.foldl_cons]
      exact ih _ (bestStep_isSome_of_acc better route acc e h)

lemma foldl_bestStep_isSome_of_mem (better : BgpRib4Entry → BgpRib4Entry → Bool)
    (route : Prefix4) (l : List BgpRib4Entry) (acc : Option BgpRib4Entry)
    (e : BgpRib4Entry) (he : e ∈ l) (hr : e.route = route) :
    (l.foldl (bestStep better route) acc).isSome = true := by
  induction l generalizing acc with
  | nil => simp at he
  | cons x rest ih =>
      simp only [List.foldl_cons]
      rcases List.mem_cons.mp he with hx | hx
      · subst hx
        exact foldl_bestStep_isSome better route rest _ (bestStep_match better route acc e hr)
      · exact ih _ hx

lemma find_best_isSome_of_mem (better : BgpRib4Entry → BgpRib4Entry → Bool)
    (route : Prefix4) (l : List BgpRib4Entry) (e : BgpRib4Entry)
    (he : e ∈ l) (hr : e.route = route) :
    (find_best better l route).isSome = true :=
  foldl_bestStep_isSome_of_mem better route l none e he hr

lemma find_best_append_singleton (better : BgpRib4Entry → BgpRib4Entry → Bool)
    (route : Prefix4) (l : List BgpRib4Entry) (e : BgpRib4Entry) :
    find_best better (l ++ [e]) route = bestStep better route (find_best better l route) e := by
  unfold find_best
  rw [List.foldl_append]
  rfl

lemma foldl_bestStep_filter (better : BgpRib4Entry → BgpRib4Entry → Bool)
    (route : Prefix4) (q : BgpRib4Entry → Bool) (l : List BgpRib4Entry)
    (h : ∀ e ∈ l, q e = false → ¬(e.route = route)) :
    ∀ acc, (l.filter q).foldl (bestStep better route) acc = l.foldl (bestStep better route) acc := by
  induction l with
  | nil => intro acc; rfl
  | cons x rest ih =>
      intro acc
      by_cases hq : q x = true
      · rw [List.filter_cons_of_pos hq]
        simp only [List.foldl_cons]
        exact ih (fun e he hf => h e (List.mem_cons_of_mem x he) hf) _
      · have hqf : q x = false := by simpa using hq
        have hxr : ¬(x.route = route) := h x (List.mem_cons_self x rest) hqf
        rw [List.filter_cons_of_neg (by simp [hqf])]
        simp only [List.foldl_cons]
        rw [show bestStep better route acc x = acc by unfold bestStep; simp [hxr]]
        exact ih (fun e he hf => h e (List.mem_cons_of_mem x he) hf) _

lemma find_best_filter (better : BgpRib4Entry → BgpRib4Entry → Bool)
    (route : Prefix4) (q : BgpRib4Entry → Bool) (l : List BgpRib4Entry)
    (h : ∀ e ∈ l, q e = false → ¬(e.route = route)) :
    find_best better (l.filter q) route = find_best better l route :=
  foldl_bestStep_filter better route q l h none

lemma replStep_skip (better : BgpRib4Entry → BgpRib4Entry → Bool) (s : Nat)
    (r : Prefix4) (acc : Option BgpRib4Entry) (e : BgpRib4Entry)
    (h : ¬(e.route = r ∧ e.src_router_id ≠ s)) : replStep better s r acc e = acc := by
  unfold replStep
  simp [h]

lemma selectRepl_append_singleton (better : BgpRib4Entry → BgpRib4Entry → Bool)
    (s : Nat) (r : Prefix4) (l : List BgpRib4Entry) (e : BgpRib4Entry) :
    selectRepl better (l ++ [e]) s r = replStep better s r (selectRepl better l s r) e := by
  unfold selectRepl
  rw [List.foldl_append]
  rfl

lemma replStep_isSome_of_acc (better : BgpRib4Entry → BgpRib4Entry → Bool)
    (s : Nat) (r : Prefix4) (acc : Option BgpRib4Entry) (e : BgpRib4Entry)
    (h : acc.isSome = true) : (replStep better s r acc e).isSome = true := by
  unfold replStep
  cases acc with
  | none => simp at h
  | some cur => by_cases hr : e.route = r ∧ e.src_router_id ≠ s <;> simp [hr]

lemma replStep_match (better : BgpRib4Entry → BgpRib4Entry → Bool)
    (s : Nat) (r : Prefix4) (acc : Option BgpRib4Entry) (e : BgpRib4Entry)
    (h : e.route = r ∧ e.src_router_id ≠ s) : (replStep better s r acc e).isSome = true := by
  unfold replStep
  cases acc <;> simp [h]

lemma foldl_replStep_isSome (better : BgpRib4Entry → BgpRib4Entry → Bool)
    (s : Nat) (r : Prefix4) (l : List BgpRib4Entry) (acc : Option BgpRib4Entry)
    (h : acc.isSome = true) :
    (l.foldl (replStep better s r) acc).isSome = true := by
  induction l generalizing acc with
  | nil => simpa using h
  | cons e rest ih =>
      simp only [List.foldl_cons]
      exact ih _ (replStep_isSome_of_acc better s r acc e h)

lemma foldl_replStep_isSome_of_mem (better : BgpRib4Entry → BgpRib4Entry → Bool)
    (s : Nat) (r : Prefix4) (l : List BgpRib4Entry) (acc : Option BgpRib4Entry)
    (e : BgpRib4Entry) (he : e ∈ l) (hr : e.route = r ∧ e.src_router_id ≠ s) :
    (l.foldl (replStep better s r) acc).isSome = true := by
  induction l generalizing acc with
  | nil => simp at he
  | cons x rest ih =>
      simp only [List.foldl_cons]
      rcases List.mem_cons.mp he with hx | hx
      · subst hx
        exact foldl_replStep_isSome better s r rest _ (replStep_match better s r acc e hr)
      · exact ih _ hx

lemma selectRepl_isSome_of_mem (better : BgpRib4Entry → BgpRib4Entry → Bool)
    (s : Nat) (r : Prefix4) (l : List BgpRib4Entry) (e : BgpRib4Entry)
    (he : e ∈ l) (hr : e.route = r ∧ e.src_router_id ≠ s) :
    (selectRepl better l s r).isSome = true :=
  foldl_replStep_isSome_of_mem better s r l none e he hr

lemma lastMatch_append_singleton (l : List BgpRib4Entry) (e : BgpRib4Entry)
    (s : Nat) (r : Prefix4)
    (h : ∀ x ∈ l, ¬(x.route = r ∧ x.src_router_id = s))
    (he : e.route = r ∧ e.src_router_id = s) :
    lastMatch (l ++ [e]) s r = some (l.length, e) := by
  induction l with
  | nil =>
      unfold lastMatch
      simp [lastMatch, he]
  | cons x rest ih =>
      have hrest : lastMatch (rest ++ [e]) s r = some (rest.length, e) :=
        ih (fun y hy => h y (List.mem_cons_of_mem x hy))
      show lastMatch (x :: (rest ++ [e])) s r = _
      unfold lastMatch
      rw [hrest]
      simp

lemma eraseIdx_append_singleton (l : List BgpRib4Entry) (e : BgpRib4Entry) :
    (l ++ [e]).eraseIdx l.length = l := by
  rw [List.eraseIdx_append_of_length_le (Nat.le_refl l.length)]
  simp

lemma insertPriv_eq_none_case (better : BgpRib4Entry → BgpRib4Entry → Bool)
    (st : BgpRib4) (s : Nat) (r : Prefix4) (attrib : List BgpPathAttrib)
    (w : Int) (ib : Nat) (h : find_best better st.rib r = none) :
    BgpRib4.insertPriv better st s r attrib w ib =
      ({ st with rib := st.rib ++ [mkEntry st s r attrib w ib] },
        some (mkEntry st s r attrib w ib)) := by
  simp only [BgpRib4.insertPriv, h]

lemma insertPriv_eq_some_case (better : BgpRib4Entry → BgpRib4Entry → Bool)
    (st : BgpRib4) (s : Nat) (r : Prefix4) (attrib : List BgpPathAttrib)
    (w : Int) (ib : Nat) (ob nb : BgpRib4Entry)
    (h : find_best better st.rib r = some ob)
    (hnb : find_best better
      (st.rib.filter (fun e => !(decide (e.route = r) && decide (e.src_router_id = s)))
        ++ [mkEntry st s r attrib w ib]) r = some nb) :
    BgpRib4.insertPriv better st s r attrib w ib =
      ({ st with rib := st.rib.filter (fun e => !(decide (e.route = r) && decide (e.src_router_id = s)))
          ++ [mkEntry st s r attrib w ib] },
        if nb.update_id ≠ ob.update_id then some nb else none) := by
  simp only [BgpRib4.insertPriv, h, hnb]

lemma find_best_append_mk_isSome (better : BgpRib4Entry → BgpRib4Entry → Bool)
    (l : List BgpRib4Entry) (st : BgpRib4) (s : Nat) (r : Prefix4)
    (attrib : List BgpPathAttrib) (w : Int) (ib : Nat) :
    (find_best better (l ++ [mkEntry st s r attrib w ib]) r).isSome = true :=
  find_best_isSome_of_mem better r _ (mkEntry st s r attrib w ib)
    (List.mem_append_right l (List.mem_singleton.mpr rfl)) rfl

/-- Claim C2: the learned route insert returns the new best entry exactly when no
best entry for the prefix existed before the insert or the update_id of the best
entry changed, and returns none (no outbound change) otherwise. -/
theorem insert_returns_best_iff (better : BgpRib4Entry → BgpRib4Entry → Bool)
    (st : BgpRib4) (s : Nat) (r : Prefix4) (attrib : List BgpPathAttrib)
    (w : Int) (ib : Nat) :
    (∀ b, (BgpRib4.insert better st s r attrib w ib).2 = some b →
        find_best better (BgpRib4.insert better st s r attrib w ib).1.rib r = some b)
    ∧ ((BgpRib4.insert better st s r attrib w ib).2.isSome = true ↔
        (find_best better st.rib r = none ∨
          (find_best better (BgpRib4.insert better st s r attrib w ib).1.rib r).map (fun e => e.update_id)
            ≠ (find_best better st.rib r).map (fun e => e.update_id))) := by
  have hins : BgpRib4.insert better st s r attrib w ib =
      BgpRib4.insertPriv better { st with update_id := st.update_id + 1 } s r attrib w ib := rfl
  cases h : find_best better st.rib r with
  | none =>
      have he := insertPriv_eq_none_case better { st with update_id := st.update_id + 1 }
        s r attrib w ib h
      rw [hins, he]
      constructor
      · intro b hb
        have hb' : mkEntry { st with update_id := st.update_id + 1 } s r attrib w ib = b :=
          Option.some.inj hb
        subst hb'
        rw [find_best_append_singleton, h]
        unfold bestStep
        simp [mkEntry]
      · simp [h]
  | some ob =>
      have hs2 := find_best_append_mk_isSome better
        (st.rib.filter (fun e => !(decide (e.route = r) && decide (e.src_router_id = s))))
        { st with update_id := st.update_id + 1 } s r attrib w ib
      obtain ⟨nb, hnb⟩ := Option.isSome_iff_exists.mp hs2
      have he := insertPriv_eq_some_case better { st with update_id := st.update_id + 1 }
        s r attrib w ib ob nb h hnb
      have hQ1 : (BgpRib4.insert better st s r attrib w ib).1.rib =
          st.rib.filter (fun e => !(decide (e.route = r) && decide (e.src_router_id = s)))
            ++ [mkEntry { st with update_id := st.update_id + 1 } s r attrib w ib] := by
        rw [hins, he]
      have hQ2 : (BgpRib4.insert better st s r attrib w ib).2 =
          if nb.update_id ≠ ob.update_id then some nb else none := by
        rw [hins, he]
      constructor
      · intro b hb
        rw [hQ2] at hb
        rw [hQ1]
        by_cases hid : nb.update_id = ob.update_id
        · rw [if_neg (by simp [hid])] at hb
          simp at hb
        · rw [if_pos hid] at hb
          have hb' : nb = b := Option.some.inj hb
          subst hb'
          exact hnb
      · rw [hQ1, hQ2, hnb]
        by_cases hid : nb.update_id = ob.update_id
        · rw [if_neg (by simp [hid])]
          simp [hid]
        · rw [if_pos hid]
          simp [hid]

/-- Witness for claim C2 at a concrete input: inserting into an empty RIB returns
an entry. -/
theorem insert_returns_best_iff_witness :
    (BgpRib4.insert specBetter ⟨[], 0⟩ 1 ⟨10, 8⟩ [] 0 0).2.isSome = true :=
  (insert_returns_best_iff specBetter ⟨[], 0⟩ 1 ⟨10, 8⟩ [] 0 0).2.mpr (Or.inl (by decide))

/-- Claim C1 evaluation: withdrawing the only entry of a prefix does not remove
it; the entry stays in the RIB and the call answers the pair false, none, while
the claim asks for removal with present true, nil replacement and the
unreachable marker. -/
theorem withdraw_sole_entry_left_in_place :
    BgpRib4.withdraw specBetter
        ⟨[⟨⟨10, 8⟩, 5, [], 0, 0, .src_ebgp, 0⟩], 7⟩ 5 ⟨10, 8⟩ =
      (⟨[⟨⟨10, 8⟩, 5, [], 0, 0, .src_ebgp, 0⟩], 7⟩, false, none) ∧
    (⟨⟨10, 8⟩, 5, [], 0, 0, .src_ebgp, 0⟩ : BgpRib4Entry) ∈
      (BgpRib4.withdraw specBetter
        ⟨[⟨⟨10, 8⟩, 5, [], 0, 0, .src_ebgp, 0⟩], 7⟩ 5 ⟨10, 8⟩).1.rib := by
  decide

/-- Counterexample to claim C3 as stated: when an entry with the same prefix and
source already sits in the RIB, insert erases it, so the following withdraw does
not restore the earlier best entry. -/
theorem insert_withdraw_not_inverse_cex :
    find_best specBetter
        (BgpRib4.withdraw specBetter
          (BgpRib4.insert specBetter ⟨[⟨⟨10, 8⟩, 5, [], 0, 0, .src_ebgp, 0⟩], 0⟩
            5 ⟨10, 8⟩ [] 0 0).1 5 ⟨10, 8⟩).1.rib ⟨10, 8⟩ ≠
      find_best specBetter [⟨⟨10, 8⟩, 5, [], 0, 0, .src_ebgp, 0⟩] ⟨10, 8⟩ := by
  decide

/-- Claim C3 as amended: when the RIB holds no entry with the given prefix and
source but holds some other entry for the prefix, insert then withdraw of that
pair restores the RIB, and with it the best entry of the prefix, to what they
were before. -/
theorem insert_withdraw_inverse_of_fresh (better : BgpRib4Entry → BgpRib4Entry → Bool)
    (st : BgpRib4) (x : Nat) (r : Prefix4) (attrib : List BgpPathAttrib)
    (w : Int) (ib : Nat)
    (h1 : ∀ e ∈ st.rib, ¬(e.route = r ∧ e.src_router_id = x))
    (h2 : ∃ e ∈ st.rib, e.route = r) :
    (BgpRib4.withdraw better (BgpRib4.insert better st x r attrib w ib).1 x r).1.rib = st.rib ∧
    find_best better
        (BgpRib4.withdraw better (BgpRib4.insert better st x r attrib w ib).1 x r).1.rib r
      = find_best better st.rib r := by
  obtain ⟨e0, he0, hr0⟩ := h2
  have hsrc0 : e0.src_router_id ≠ x := fun hx => h1 e0 he0 ⟨hr0, hx⟩
  have hins : BgpRib4.insert better st x r attrib w ib =
      BgpRib4.insertPriv better { st with update_id := st.update_id + 1 } x r attrib w ib := rfl
  have hbs : (find_best better st.rib r).isSome = true :=
    find_best_isSome_of_mem better r st.rib e0 he0 hr0
  obtain ⟨ob, hob⟩ := Option.isSome_iff_exists.mp hbs
  have hfil : st.rib.filter (fun e => !(decide (e.route = r) && decide (e.src_router_id = x)))
      = st.rib := by
    rw [List.filter_eq_self]
    intro a ha
    have hna := h1 a ha
    simp only [Bool.not_eq_eq_eq_not, Bool.not_true, Bool.and_eq_false_imp] at *
    simp only [Bool.not_and, Bool.not_eq_true', decide_eq_false_iff_not]
    by_cases hra : a.route = r
    · simp [hra]
      exact fun hsa => hna ⟨hra, hsa⟩
    · simp [hra]
  have hs2 := find_best_append_mk_isSome better
    (st.rib.filter (fun e => !(decide (e.route = r) && decide (e.src_router_id = x))))
    { st with update_id := st.update_id + 1 } x r attrib w ib
  obtain ⟨nb, hnb⟩ := Option.isSome_iff_exists.mp hs2
  have he := insertPriv_eq_some_case better { st with update_id := st.update_id + 1 }
    x r attrib w ib ob nb hob hnb
  have hQ1 : (BgpRib4.insert better st x r attrib w ib).1.rib =
      st.rib ++ [mkEntry { st with update_id := st.update_id + 1 } x r attrib w ib] := by
    rw [hins, he]
    show st.rib.filter (fun e => !(decide (e.route = r) && decide (e.src_router_id = x)))
        ++ _ = _
    rw [hfil]
  have hlast : lastMatch
      (st.rib ++ [mkEntry { st with update_id := st.update_id + 1 } x r attrib w ib]) x r
      = some (st.rib.length, mkEntry { st with update_id := st.update_id + 1 } x r attrib w ib) :=
    lastMatch_append_singleton st.rib _ x r h1 ⟨rfl, rfl⟩
  have hreplskip : selectRepl better
      (st.rib ++ [mkEntry { st with update_id := st.update_id + 1 } x r attrib w ib]) x r
      = selectRepl better st.rib x r := by
    rw [selectRepl_append_singleton]
    exact replStep_skip better x r _ _ (by simp [mkEntry])
  have hreps : (selectRepl better st.rib x r).isSome = true :=
    selectRepl_isSome_of_mem better x r st.rib e0 he0 ⟨hr0, hsrc0⟩
  obtain ⟨rep, hrep⟩ := Option.isSome_iff_exists.mp hreps
  have hwd : (BgpRib4.withdraw better (BgpRib4.insert better st x r attrib w ib).1 x r).1.rib
      = st.rib := by
    unfold BgpRib4.withdraw
    rw [hQ1, hlast, hreplskip, hrep]
    show ((st.rib ++ [mkEntry { st with update_id := st.update_id + 1 } x r attrib w ib]).eraseIdx
      st.rib.length) = st.rib
    exact eraseIdx_append_singleton st.rib _
  exact ⟨hwd, by rw [hwd]⟩

/-- Witness for the amended claim C3 at a concrete input: with one entry of
another source present, insert then withdraw of a fresh pair restores the RIB. -/
theorem insert_withdraw_inverse_of_fresh_witness :
    (BgpRib4.withdraw specBetter
        (BgpRib4.insert specBetter ⟨[⟨⟨10, 8⟩, 9, [], 0, 0, .src_ebgp, 0⟩], 0⟩
          5 ⟨10, 8⟩ [] 0 0).1 5 ⟨10, 8⟩).1.rib =
      [⟨⟨10, 8⟩, 9, [], 0, 0, .src_ebgp, 0⟩] :=
  (insert_withdraw_inverse_of_fresh specBetter ⟨[⟨⟨10, 8⟩, 9, [], 0, 0, .src_ebgp, 0⟩], 0⟩
    5 ⟨10, 8⟩ [] 0 0 (by decide) ⟨⟨⟨10, 8⟩, 9, [], 0, 0, .src_ebgp, 0⟩, by decide⟩).1

lemma discard_rib_eq (better : BgpRib4Entry → BgpRib4Entry → Bool)
    (st : BgpRib4) (s : Nat) :
    (BgpRib4.discard better st s).1.rib =
      st.rib.filter (fun e => !decide (e.src_router_id = s)) := rfl

lemma discard_changed_eq (better : BgpRib4Entry → BgpRib4Entry → Bool)
    (st : BgpRib4) (s : Nat) :
    (BgpRib4.discard better st s).2 =
      ((st.rib.filter (fun e => decide (e.src_router_id = s))).map (fun e => e.route)).dedup.filter
        (fun p => !decide (find_best better st.rib p
          = find_best better (st.rib.filter (fun e => !decide (e.src_router_id = s))) p)) := rfl

/-- Claim C9: discard removes exactly the entries of the given source router id
and returns exactly the prefixes whose best entry changed. -/
theorem discard_removes_and_returns_changed (better : BgpRib4Entry → BgpRib4Entry → Bool)
    (st : BgpRib4) (s : Nat) :
    (∀ e, e ∈ (BgpRib4.discard better st s).1.rib ↔ (e ∈ st.rib ∧ e.src_router_id ≠ s)) ∧
    (∀ p : Prefix4, p ∈ (BgpRib4.discard better st s).2 ↔
        find_best better st.rib p ≠ find_best better (BgpRib4.discard better st s).1.rib p) := by
  constructor
  · intro e
    rw [discard_rib_eq]
    simp [List.mem_filter]
  · intro p
    rw [discard_changed_eq, discard_rib_eq]
    constructor
    · intro hp
      have hp' := (List.mem_filter.mp hp).2
      simpa using hp'
    · intro hne
      rw [List.mem_filter]
      refine ⟨?_, by simpa using hne⟩
      rw [List.mem_dedup]
      by_contra hnd
      apply hne
      apply (find_best_filter better p (fun e => !decide (e.src_router_id = s)) st.rib ?_).symm
      intro e he hf hr
      apply hnd
      rw [List.mem_map]
      refine ⟨e, ?_, hr⟩
      rw [List.mem_filter]
      exact ⟨he, by simpa using hf⟩

/-- Witness for claim C9 at a concrete input: discarding the only source of a
prefix changes its best entry, so the prefix is returned. -/
theorem discard_removes_and_returns_changed_witness :
    (⟨10, 8⟩ : Prefix4) ∈
      (BgpRib4.discard specBetter ⟨[⟨⟨10, 8⟩, 5, [], 0, 0, .src_ebgp, 0⟩], 0⟩ 5).2 :=
  ((discard_removes_and_returns_changed specBetter
      ⟨[⟨⟨10, 8⟩, 5, [], 0, 0, .src_ebgp, 0⟩], 0⟩ 5).2 ⟨10, 8⟩).mpr (by decide)

/-- The ASN sequence the AS_PATH attribute of a message carries, empty when the
attribute is absent. -/
def BgpUpdateMessage.asPathFlat (msg : BgpUpdateMessage) : List Nat :=
  match msg.getAttrib AS_PATH with
  | some (.as_path _ segs) => flattenSegs segs
  | _ => []

/-- The ASN sequence the AS4_PATH attribute of a message carries, empty when the
attribute is absent. -/
def BgpUpdateMessage.as4PathFlat (msg : BgpUpdateMessage) : List Nat :=
  match msg.getAttrib AS4_PATH with
  | some (.as4_path segs) => flattenSegs segs
  | _ => []

/-- Claim C10: addAttrib refuses an attribute whose type code is already present
leaving the list unchanged, appends it otherwise, and so never introduces a
duplicate type code. -/
theorem addAttrib_no_duplicate (msg : BgpUpdateMessage) (a : BgpPathAttrib) :
    (msg.hasAttrib a.type_code = true → msg.addAttrib a = (false, msg)) ∧
    (msg.hasAttrib a.type_code = false →
      msg.addAttrib a = (true, { msg with path_attribute := msg.path_attribute ++ [a] })) ∧
    (∀ t, msg.path_attribute.countP (fun x => x.type_code == t) ≤ 1 →
      ((msg.addAttrib a).2.path_attribute.countP (fun x => x.type_code == t) ≤ 1)) := by
  refine ⟨?_, ?_, ?_⟩
  · intro h
    simp [BgpUpdateMessage.addAttrib, h]
  · intro h
    simp [BgpUpdateMessage.addAttrib, h]
  · intro t hc
    by_cases h : msg.hasAttrib a.type_code = true
    · simp [BgpUpdateMessage.addAttrib, h]
      exact hc
    · have h' : msg.hasAttrib a.type_code = false := by simpa using h
      simp only [BgpUpdateMessage.addAttrib, h', Bool.false_eq_true, if_false]
      rw [List.countP_append]
      by_cases hta : a.type_code = t
      · have hz : msg.path_attribute.countP (fun x => x.type_code == t) = 0 := by
          rw [List.countP_eq_zero]
          intro x hx hbx
          have hxt : x.type_code = t := by simpa using hbx
          have : msg.path_attribute.any (fun y => y.type_code == a.type_code) = true := by
            rw [List.any_eq_true]
            exact ⟨x, hx, by simp [hxt, hta]⟩
          rw [BgpUpdateMessage.hasAttrib] at h'
          rw [h'] at this
          exact Bool.false_ne_true this
        rw [hz]
        simp [hta]
      · have : List.countP (fun x => x.type_code == t) [a] = 0 := by
          simp [List.countP_cons, hta]
        rw [this]
        simpa using hc

/-- Witness for claim C10 at a concrete input: adding a second ORIGIN attribute
is refused and the message kept unchanged. -/
theorem addAttrib_no_duplicate_witness :
    (⟨true, [BgpPathAttrib.origin 0]⟩ : BgpUpdateMessage).addAttrib (.origin 1) =
      (false, ⟨true, [BgpPathAttrib.origin 0]⟩) :=
  (addAttrib_no_duplicate ⟨true, [BgpPathAttrib.origin 0]⟩ (.origin 1)).1 (by decide)

lemma hasAttrib_of_getAttrib (msg : BgpUpdateMessage) (t : Nat) (a : BgpPathAttrib)
    (h : msg.getAttrib t = some a) : msg.hasAttrib t = true := by
  rw [BgpUpdateMessage.getAttrib] at h
  rw [BgpUpdateMessage.hasAttrib, List.any_eq_true]
  refine ⟨a, List.mem_of_find?_eq_some h, ?_⟩
  have hp := List.find?_some h
  exact hp

lemma getAttrib_isSome_of_has (msg : BgpUpdateMessage) (t : Nat)
    (h : msg.hasAttrib t = true) : (msg.getAttrib t).isSome = true := by
  rw [BgpUpdateMessage.getAttrib, List.find?_isSome]
  rw [BgpUpdateMessage.hasAttrib, List.any_eq_true] at h
  exact h

lemma getAttrib_eq_none_of_not_has (msg : BgpUpdateMessage) (t : Nat)
    (h : msg.hasAttrib t = false) : msg.getAttrib t = none := by
  cases hg : msg.getAttrib t with
  | none => rfl
  | some a => rw [hasAttrib_of_getAttrib msg t a hg] at h; exact absurd h (by simp)

lemma wf_as_path_shape (msg : BgpUpdateMessage) (hwf : wfAttrs msg.path_attribute = true)
    (a : BgpPathAttrib) (h : msg.getAttrib AS_PATH = some a) :
    ∃ b segs, a = .as_path b segs := by
  rw [BgpUpdateMessage.getAttrib] at h
  have htc : a.type_code = AS_PATH := by simpa using List.find?_some h
  have hmem : a ∈ msg.path_attribute := List.mem_of_find?_eq_some h
  cases a with
  | as_path b segs => exact ⟨b, segs, rfl⟩
  | generic c =>
      have := (List.all_eq_true.mp hwf) (.generic c) hmem
      simp only [BgpPathAttrib.type_code] at htc
      subst htc
      simp at this
  | origin v => simp [BgpPathAttrib.type_code, ORIGIN, AS_PATH] at htc
  | nexthop v => simp [BgpPathAttrib.type_code, NEXT_HOP, AS_PATH] at htc
  | med v => simp [BgpPathAttrib.type_code, MULTI_EXIT_DISC, AS_PATH] at htc
  | local_pref v => simp [BgpPathAttrib.type_code, LOCAL_PREF, AS_PATH] at htc
  | as4_path segs => simp [BgpPathAttrib.type_code, AS4_PATH, AS_PATH] at htc

lemma wf_as4_path_shape (msg : BgpUpdateMessage) (hwf : wfAttrs msg.path_attribute = true)
    (a : BgpPathAttrib) (h : msg.getAttrib AS4_PATH = some a) :
    ∃ segs, a = .as4_path segs := by
  rw [BgpUpdateMessage.getAttrib] at h
  have htc : a.type_code = AS4_PATH := by simpa using List.find?_some h
  have hmem : a ∈ msg.path_attribute := List.mem_of_find?_eq_some h
  cases a with
  | as4_path segs => exact ⟨segs, rfl⟩
  | generic c =>
      have := (List.all_eq_true.mp hwf) (.generic c) hmem
      simp only [BgpPathAttrib.type_code] at htc
      subst htc
      simp at this
  | origin v => simp [BgpPathAttrib.type_code, ORIGIN, AS4_PATH] at htc
  | nexthop v => simp [BgpPathAttrib.type_code, NEXT_HOP, AS4_PATH] at htc
  | med v => simp [BgpPathAttrib.type_code, MULTI_EXIT_DISC, AS4_PATH] at htc
  | local_pref v => simp [BgpPathAttrib.type_code, LOCAL_PREF, AS4_PATH] at htc
  | as_path b segs => simp [BgpPathAttrib.type_code, AS4_PATH, AS_PATH] at htc

lemma find?_setFirstAttrib_self (l : List BgpPathAttrib) (t : Nat) (a : BgpPathAttrib)
    (ht : a.type_code = t)
    (h : (l.find? (fun x => x.type_code == t)).isSome = true) :
    (setFirstAttrib l t a).find? (fun x => x.type_code == t) = some a := by
  induction l with
  | nil => simp at h
  | cons x rest ih =>
      by_cases hx : x.type_code = t
      · rw [setFirstAttrib]
        rw [if_pos (by simp [hx])]
        rw [List.find?_cons_of_pos _ (by simp [ht])]
      · rw [setFirstAttrib, if_neg (by simp [hx])]
        rw [List.find?_cons_of_neg _ (by simp [hx])]
        apply ih
        rw [List.find?_cons_of_neg _ (by simp [hx])] at h
        exact h

lemma find?_setFirstAttrib_other (l : List BgpPathAttrib) (t u : Nat) (a : BgpPathAttrib)
    (ht : a.type_code = t) (hne : t ≠ u) :
    (setFirstAttrib l t a).find? (fun x => x.type_code == u) =
      l.find? (fun x => x.type_code == u) := by
  induction l with
  | nil => rfl
  | cons x rest ih =>
      by_cases hx : x.type_code = t
      · rw [setFirstAttrib, if_pos (by simp [hx])]
        rw [List.find?_cons_of_neg _ (by simp [ht, hne]),
          List.find?_cons_of_neg _ (by simp [hx, hne])]
      · rw [setFirstAttrib, if_neg (by simp [hx])]
        by_cases hu : x.type_code = u
        · rw [List.find?_cons_of_pos _ (by simp [hu]), List.find?_cons_of_pos _ (by simp [hu])]
        · rw [List.find?_cons_of_neg _ (by simp [hu]), List.find?_cons_of_neg _ (by simp [hu])]
          exact ih

lemma any_setFirstAttrib_other (l : List BgpPathAttrib) (t u : Nat) (a : BgpPathAttrib)
    (ht : a.type_code = t) (hne : t ≠ u) :
    (setFirstAttrib l t a).any (fun x => x.type_code == u) =
      l.any (fun x => x.type_code == u) := by
  induction l with
  | nil => rfl
  | cons x rest ih =>
      by_cases hx : x.type_code = t
      · rw [setFirstAttrib, if_pos (by simp [hx])]
        simp [ht, hne, hx]
      · rw [setFirstAttrib, if_neg (by simp [hx])]
        simp only [List.any_cons, ih]

lemma flattenSegs_asPathPrepend (b : Bool) (segs : List BgpAsPathSegment) (asn : Nat) :
    flattenSegs (asPathPrepend b segs asn) = asn :: flattenSegs segs := by
  cases segs with
  | nil => simp [asPathPrepend, flattenSegs]
  | cons s rest =>
      rw [asPathPrepend]
      by_cases hc : s.type = .as_sequence ∧ s.value.length < 255
      · rw [if_pos hc]
        simp [flattenSegs]
      · rw [if_neg hc]
        simp [flattenSegs]

/-- Claim C8: in 4-byte mode prepend fails exactly when an AS4_PATH attribute is
present or the existing AS_PATH is 2-byte, every failure leaves the attribute
list unchanged, and with no AS_PATH and no AS4_PATH it appends a fresh AS_PATH
holding one AS_SEQUENCE segment with the given ASN. -/
theorem prepend_4b_mode (msg : BgpUpdateMessage) (asn : Nat)
    (h4 : msg.use_4b_asn = true) (hwf : wfAttrs msg.path_attribute = true) :
    ((msg.prepend asn).1 = false ↔
      (msg.hasAttrib AS4_PATH = true ∨
        ∃ segs, msg.getAttrib AS_PATH = some (.as_path false segs)))
    ∧ ((msg.prepend asn).1 = false → (msg.prepend asn).2 = msg)
    ∧ (msg.hasAttrib AS_PATH = false → msg.hasAttrib AS4_PATH = false →
        msg.prepend asn = (true, { msg with path_attribute :=
          msg.path_attribute ++ [.as_path true [⟨.as_sequence, true, [asn]⟩]] })) := by
  by_cases h17 : msg.hasAttrib AS4_PATH = true
  · have hres : msg.prepend asn = (false, msg) := by
      unfold BgpUpdateMessage.prepend
      rw [h4, h17]
      simp
    rw [hres]
    refine ⟨by simp [h17], fun _ => rfl, fun _ hx => absurd h17 (by simp [hx])⟩
  · have h17' : msg.hasAttrib AS4_PATH = false := by simpa using h17
    by_cases h2 : msg.hasAttrib AS_PATH = true
    · obtain ⟨a, hga⟩ := Option.isSome_iff_exists.mp (getAttrib_isSome_of_has msg AS_PATH h2)
      obtain ⟨b, segs, rfl⟩ := wf_as_path_shape msg hwf a hga
      cases b with
      | true =>
          have hres : msg.prepend asn = (true,
              { msg with path_attribute := setFirstAttrib msg.path_attribute AS_PATH (.as_path true (asPathPrepend true segs asn)) }) := by
            unfold BgpUpdateMessage.prepend
            rw [h4, h17', h2, hga]
            simp
          rw [hres]
          refine ⟨?_, by simp, fun hx _ => absurd h2 (by simp [hx])⟩
          simp only [h17', Bool.false_eq_true, false_or]
          constructor
          · intro hx
            exact absurd hx (by simp)
          · rintro ⟨segs', hs'⟩
            rw [hga] at hs'
            simp at hs'
      | false =>
          have hres : msg.prepend asn = (false, msg) := by
            unfold BgpUpdateMessage.prepend
            rw [h4, h17', h2, hga]
            simp
          rw [hres]
          refine ⟨?_, fun _ => rfl, fun hx _ => absurd h2 (by simp [hx])⟩
          simp only [h17', Bool.false_eq_true, false_or]
          exact ⟨fun _ => ⟨segs, hga⟩, fun _ => trivial⟩
    · have h2' : msg.hasAttrib AS_PATH = false := by simpa using h2
      have hres : msg.prepend asn = (true, { msg with path_attribute :=
          msg.path_attribute ++ [.as_path true (asPathPrepend true [] asn)] }) := by
        unfold BgpUpdateMessage.prepend
        rw [h4, h17', h2']
        simp
      rw [hres]
      refine ⟨?_, by simp, fun _ _ => rfl⟩
      simp only [h17', Bool.false_eq_true, false_or]
      constructor
      · intro hx
        exact absurd hx (by simp)
      · rintro ⟨segs', hs'⟩
        rw [getAttrib_eq_none_of_not_has msg AS_PATH h2'] at hs'
        exact absurd hs' (by simp)

/-- Witness for claim C8 at a concrete input: in 4-byte mode with no AS_PATH and
no AS4_PATH a fresh single segment AS_PATH is appended. -/
theorem prepend_4b_mode_witness :
    (⟨true, [BgpPathAttrib.origin 0]⟩ : BgpUpdateMessage).prepend 65536 =
      (true, ⟨true, [BgpPathAttrib.origin 0,
        .as_path true [⟨.as_sequence, true, [65536]⟩]]⟩) :=
  (prepend_4b_mode ⟨true, [BgpPathAttrib.origin 0]⟩ 65536 rfl (by decide)).2.2
    (by decide) (by decide)

lemma asPathFlat_congr (m2 m1 : BgpUpdateMessage)
    (h : m2.getAttrib AS_PATH = m1.getAttrib AS_PATH) :
    m2.asPathFlat = m1.asPathFlat := by
  rw [BgpUpdateMessage.asPathFlat, BgpUpdateMessage.asPathFlat, h]

lemma as4PathFlat_congr (m2 m1 : BgpUpdateMessage)
    (h : m2.getAttrib AS4_PATH = m1.getAttrib AS4_PATH) :
    m2.as4PathFlat = m1.as4PathFlat := by
  rw [BgpUpdateMessage.as4PathFlat, BgpUpdateMessage.as4PathFlat, h]

lemma prepend2bAs4_spec (m1 : BgpUpdateMessage) (prep : Nat)
    (hsh : m1.getAttrib AS4_PATH = none ∨
      ∃ segs4, m1.getAttrib AS4_PATH = some (.as4_path segs4)) :
    (m1.prepend2bAs4 prep).1 = true
    ∧ (m1.prepend2bAs4 prep).2.asPathFlat = m1.asPathFlat
    ∧ (m1.hasAttrib AS4_PATH = true →
        (m1.prepend2bAs4 prep).2.as4PathFlat = prep :: m1.as4PathFlat)
    ∧ (m1.hasAttrib AS4_PATH = false → (m1.prepend2bAs4 prep).2 = m1) := by
  by_cases h17 : m1.hasAttrib AS4_PATH = true
  · rcases hsh with hnone | ⟨segs4, hga⟩
    · have hsome := getAttrib_isSome_of_has m1 AS4_PATH h17
      rw [hnone] at hsome
      simp at hsome
    · have hres : m1.prepend2bAs4 prep = (true, { m1 with path_attribute := setFirstAttrib m1.path_attribute AS4_PATH (.as4_path (asPathPrepend true segs4 prep)) }) := by
        unfold BgpUpdateMessage.prepend2bAs4
        rw [h17, hga]
        simp
      rw [hres]
      have hget2 : ({ m1 with path_attribute := setFirstAttrib m1.path_attribute AS4_PATH (.as4_path (asPathPrepend true segs4 prep)) } : BgpUpdateMessage).getAttrib AS_PATH = m1.getAttrib AS_PATH := by
        rw [BgpUpdateMessage.getAttrib, BgpUpdateMessage.getAttrib]
        exact find?_setFirstAttrib_other m1.path_attribute AS4_PATH AS_PATH _ rfl (by decide)
      have hget17 : ({ m1 with path_attribute := setFirstAttrib m1.path_attribute AS4_PATH (.as4_path (asPathPrepend true segs4 prep)) } : BgpUpdateMessage).getAttrib AS4_PATH = some (.as4_path (asPathPrepend true segs4 prep)) := by
        rw [BgpUpdateMessage.getAttrib]
        apply find?_setFirstAttrib_self m1.path_attribute AS4_PATH
          (.as4_path (asPathPrepend true segs4 prep)) rfl
        have hsome := getAttrib_isSome_of_has m1 AS4_PATH h17
        rw [BgpUpdateMessage.getAttrib] at hsome
        exact hsome
      refine ⟨rfl, asPathFlat_congr _ _ hget2, fun _ => ?_, fun hf => absurd h17 (by simp [hf])⟩
      rw [BgpUpdateMessage.as4PathFlat, BgpUpdateMessage.as4PathFlat, hget17, hga]
      exact flattenSegs_asPathPrepend true segs4 prep
  · have h17' : m1.hasAttrib AS4_PATH = false := by simpa using h17
    have hres : m1.prepend2bAs4 prep = (true, m1) := by
      unfold BgpUpdateMessage.prepend2bAs4
      rw [h17']
      simp
    rw [hres]
    exact ⟨rfl, rfl, fun ht => absurd ht (by simp [h17']), fun _ => rfl⟩

lemma getAttrib17_shape (msg : BgpUpdateMessage) (hwf : wfAttrs msg.path_attribute = true) :
    msg.getAttrib AS4_PATH = none ∨
      ∃ s4, msg.getAttrib AS4_PATH = some (.as4_path s4) := by
  cases hg : msg.getAttrib AS4_PATH with
  | none => exact Or.inl rfl
  | some a =>
      obtain ⟨s4, rfl⟩ := wf_as4_path_shape msg hwf a hg
      exact Or.inr ⟨s4, rfl⟩

/-- Claim C4 as amended: in 2-byte mode, with no AS_PATH or a 2-byte AS_PATH,
prepend succeeds, pushes prep_asn (23456 when the ASN is at least 0xffff, the
ASN itself otherwise) onto the AS_PATH ASN sequence, and when an AS4_PATH
attribute is present pushes the same prep_asn, not the original 4-byte ASN,
onto AS4_PATH as well. -/
theorem prepend_2b_mode (msg : BgpUpdateMessage) (asn : Nat)
    (h2b : msg.use_4b_asn = false)
    (hwf : wfAttrs msg.path_attribute = true)
    (hAs : msg.hasAttrib AS_PATH = false ∨
      ∃ segs, msg.getAttrib AS_PATH = some (.as_path false segs)) :
    (msg.prepend asn).1 = true
    ∧ (msg.prepend asn).2.asPathFlat
        = (if asn ≥ 0xffff then AS_TRANS else asn) :: msg.asPathFlat
    ∧ (msg.hasAttrib AS4_PATH = true →
        (msg.prepend asn).2.as4PathFlat
          = (if asn ≥ 0xffff then AS_TRANS else asn) :: msg.as4PathFlat) := by
  have hsh17 := getAttrib17_shape msg hwf
  rcases hAs with h2f | ⟨segs, hga⟩
  · -- no AS_PATH: a fresh 2-byte AS_PATH is appended at the end
    have hm1 : msg.prepend asn = BgpUpdateMessage.prepend2bAs4 { msg with path_attribute := msg.path_attribute ++ [.as_path false (asPathPrepend false [] (if asn ≥ 0xffff then AS_TRANS else asn))] } (if asn ≥ 0xffff then AS_TRANS else asn) := by
      unfold BgpUpdateMessage.prepend
      rw [h2b]
      simp only [Bool.false_eq_true, if_false, h2f]
    have hfind2 : msg.path_attribute.find? (fun a => a.type_code == AS_PATH) = none := by
      have := getAttrib_eq_none_of_not_has msg AS_PATH h2f
      rw [BgpUpdateMessage.getAttrib] at this
      exact this
    have fact1 : ({ msg with path_attribute := msg.path_attribute ++ [.as_path false (asPathPrepend false [] (if asn ≥ 0xffff then AS_TRANS else asn))] } : BgpUpdateMessage).getAttrib AS_PATH = some (.as_path false (asPathPrepend false [] (if asn ≥ 0xffff then AS_TRANS else asn))) := by
      rw [BgpUpdateMessage.getAttrib]
      rw [List.find?_append, hfind2]
      simp [BgpPathAttrib.type_code]
    have fact2 : ({ msg with path_attribute := msg.path_attribute ++ [.as_path false (asPathPrepend false [] (if asn ≥ 0xffff then AS_TRANS else asn))] } : BgpUpdateMessage).getAttrib AS4_PATH = msg.getAttrib AS4_PATH := by
      rw [BgpUpdateMessage.getAttrib, BgpUpdateMessage.getAttrib]
      rw [List.find?_append]
      have : List.find? (fun a => a.type_code == AS4_PATH) [BgpPathAttrib.as_path false (asPathPrepend false [] (if asn ≥ 0xffff then AS_TRANS else asn))] = none := by
        simp [BgpPathAttrib.type_code, AS_PATH, AS4_PATH]
      rw [this]
      cases msg.path_attribute.find? (fun a => a.type_code == AS4_PATH) <;> rfl
    have fact3 : ({ msg with path_attribute := msg.path_attribute ++ [.as_path false (asPathPrepend false [] (if asn ≥ 0xffff then AS_TRANS else asn))] } : BgpUpdateMessage).hasAttrib AS4_PATH = msg.hasAttrib AS4_PATH := by
      rw [BgpUpdateMessage.hasAttrib, BgpUpdateMessage.hasAttrib]
      rw [List.any_append]
      simp [BgpPathAttrib.type_code, AS_PATH, AS4_PATH]
    have hspec := prepend2bAs4_spec _ (if asn ≥ 0xffff then AS_TRANS else asn)
      (by rw [fact2]; exact hsh17)
    rw [hm1]
    refine ⟨hspec.1, ?_, ?_⟩
    · rw [hspec.2.1]
      rw [BgpUpdateMessage.asPathFlat, fact1]
      rw [BgpUpdateMessage.asPathFlat, getAttrib_eq_none_of_not_has msg AS_PATH h2f]
      simp [flattenSegs_asPathPrepend, flattenSegs, asPathPrepend]
    · intro h17t
      rw [hspec.2.2.1 (by rw [fact3]; exact h17t)]
      rw [as4PathFlat_congr _ msg fact2]
  · -- a 2-byte AS_PATH is present: it is updated in place
    have h2t : msg.hasAttrib AS_PATH = true := hasAttrib_of_getAttrib msg AS_PATH _ hga
    have hm1 : msg.prepend asn = BgpUpdateMessage.prepend2bAs4 { msg with path_attribute := setFirstAttrib msg.path_attribute AS_PATH (.as_path false (asPathPrepend false segs (if asn ≥ 0xffff then AS_TRANS else asn))) } (if asn ≥ 0xffff then AS_TRANS else asn) := by
      unfold BgpUpdateMessage.prepend
      rw [h2b]
      simp only [Bool.false_eq_true, if_false, h2t, if_true, hga]
    have fact1 : ({ msg with path_attribute := setFirstAttrib msg.path_attribute AS_PATH (.as_path false (asPathPrepend false segs (if asn ≥ 0xffff then AS_TRANS else asn))) } : BgpUpdateMessage).getAttrib AS_PATH = some (.as_path false (asPathPrepend false segs (if asn ≥ 0xffff then AS_TRANS else asn))) := by
      rw [BgpUpdateMessage.getAttrib]
      apply find?_setFirstAttrib_self msg.path_attribute AS_PATH
        (.as_path false (asPathPrepend false segs (if asn ≥ 0xffff then AS_TRANS else asn))) rfl
      have hsome := getAttrib_isSome_of_has msg AS_PATH h2t
      rw [BgpUpdateMessage.getAttrib] at hsome
      exact hsome
    have fact2 : ({ msg with path_attribute := setFirstAttrib msg.path_attribute AS_PATH (.as_path false (asPathPrepend false segs (if asn ≥ 0xffff then AS_TRANS else asn))) } : BgpUpdateMessage).getAttrib AS4_PATH = msg.getAttrib AS4_PATH := by
      rw [BgpUpdateMessage.getAttrib, BgpUpdateMessage.getAttrib]
      exact find?_setFirstAttrib_other msg.path_attribute AS_PATH AS4_PATH _ rfl (by decide)
    have fact3 : ({ msg with path_attribute := setFirstAttrib msg.path_attribute AS_PATH (.as_path false (asPathPrepend false segs (if asn ≥ 0xffff then AS_TRANS else asn))) } : BgpUpdateMessage).hasAttrib AS4_PATH = msg.hasAttrib AS4_PATH := by
      rw [BgpUpdateMessage.hasAttrib, BgpUpdateMessage.hasAttrib]
      exact any_setFirstAttrib_other msg.path_attribute AS_PATH AS4_PATH _ rfl (by decide)
    have hspec := prepend2bAs4_spec _ (if asn ≥ 0xffff then AS_TRANS else asn)
      (by rw [fact2]; exact hsh17)
    rw [hm1]
    refine ⟨hspec.1, ?_, ?_⟩
    · rw [hspec.2.1]
      rw [BgpUpdateMessage.asPathFlat, fact1]
      rw [BgpUpdateMessage.asPathFlat, hga]
      simp [flattenSegs_asPathPrepend]
    · intro h17t
      rw [hspec.2.2.1 (by rw [fact3]; exact h17t)]
      rw [as4PathFlat_congr _ msg fact2]

/-- Witness for the amended claim C4 at a concrete input: a large ASN is pushed
as 23456 onto both AS_PATH and AS4_PATH. -/
theorem prepend_2b_mode_witness :
    ((⟨false, [BgpPathAttrib.as_path false [⟨.as_sequence, false, [1]⟩],
        .as4_path [⟨.as_sequence, true, [1]⟩]]⟩ : BgpUpdateMessage).prepend 65536).2.as4PathFlat
      = [23456, 1] :=
  (prepend_2b_mode ⟨false, [BgpPathAttrib.as_path false [⟨.as_sequence, false, [1]⟩],
      .as4_path [⟨.as_sequence, true, [1]⟩]]⟩ 65536 rfl (by decide)
    (Or.inr ⟨[⟨.as_sequence, false, [1]⟩], by decide⟩)).2.2 (by decide)

/-- Counterexample to claim C4 as stated: prepending ASN 65536 in 2-byte mode to
a message carrying an AS4_PATH pushes 23456 onto AS4_PATH, not the original
4-byte ASN. -/
theorem prepend_2b_as4_gets_trans :
    ((⟨false, [BgpPathAttrib.as_path false [⟨.as_sequence, false, [1]⟩],
        .as4_path [⟨.as_sequence, true, [1]⟩]]⟩ : BgpUpdateMessage).prepend 65536).2.as4PathFlat
      ≠ 65536 :: (⟨false, [BgpPathAttrib.as_path false [⟨.as_sequence, false, [1]⟩],
        .as4_path [⟨.as_sequence, true, [1]⟩]]⟩ : BgpUpdateMessage).as4PathFlat := by
  decide

lemma dropWhile_head_not (q : Nat → Bool) (l : List Nat) :
    l.dropWhile q = [] ∨ ∃ h t, l.dropWhile q = h :: t ∧ q h = false := by
  induction l with
  | nil => exact Or.inl rfl
  | cons a l ih =>
      rw [List.dropWhile_cons]
      by_cases hq : q a = true
      · rw [if_pos hq]
        exact ih
      · rw [if_neg hq]
        exact Or.inr ⟨a, l, rfl, by simpa using hq⟩

lemma dropTrailingTrans_spec (l : List Nat) :
    ∃ k, l = dropTrailingTrans l ++ List.replicate k AS_TRANS
      ∧ (dropTrailingTrans l = [] ∨ (dropTrailingTrans l).getLast? ≠ some AS_TRANS) := by
  have htake : l.reverse.takeWhile (fun a => a == AS_TRANS)
      = List.replicate (l.reverse.takeWhile (fun a => a == AS_TRANS)).length AS_TRANS :=
    List.eq_replicate_of_mem (fun b hb => by simpa using List.mem_takeWhile_imp hb)
  refine ⟨(l.reverse.takeWhile (fun a => a == AS_TRANS)).length, ?_, ?_⟩
  · conv_lhs => rw [← List.reverse_reverse l,
      ← List.takeWhile_append_dropWhile (fun a => a == AS_TRANS) l.reverse]
    rw [List.reverse_append]
    rw [dropTrailingTrans]
    conv_lhs => rw [htake, List.reverse_replicate]
  · rcases dropWhile_head_not (fun a => a == AS_TRANS) l.reverse with hnil | ⟨h, t, hht, hqh⟩
    · left
      rw [dropTrailingTrans, hnil]
      rfl
    · right
      rw [dropTrailingTrans, hht, List.getLast?_reverse, List.head?_cons]
      intro hcon
      have hh : h = AS_TRANS := Option.some.inj hcon
      rw [hh] at hqh
      simp at hqh

/-- Claim C7: with a 2-byte AS_PATH and a well formed AS4_PATH, restoreAsPath
succeeds, the AS_PATH ASN sequence splits into a prefix free of trailing
AS_TRANS followed by the placeholder run, and the restored sequence is that
prefix followed by all ASNs collected, in order, from the AS_SEQUENCE segments
of AS4_PATH. -/
theorem restoreAsPath_replaces_trans_suffix (msg : BgpUpdateMessage)
    (segs segs4 : List BgpAsPathSegment)
    (hp : msg.getAttrib AS_PATH = some (.as_path false segs))
    (h4 : msg.getAttrib AS4_PATH = some (.as4_path segs4))
    (h4b : segs4.all (fun s => s.is_4b) = true) :
    (msg.restoreAsPath).1 = true
    ∧ ∃ pre k, flattenSegs segs = pre ++ List.replicate k AS_TRANS
        ∧ (pre = [] ∨ pre.getLast? ≠ some AS_TRANS)
        ∧ (msg.restoreAsPath).2.asPathFlat = pre ++ as4Collect segs4 := by
  have h2t : msg.hasAttrib AS_PATH = true := hasAttrib_of_getAttrib msg AS_PATH _ hp
  have h17t : msg.hasAttrib AS4_PATH = true := hasAttrib_of_getAttrib msg AS4_PATH _ h4
  have hany : segs4.any (fun s => !s.is_4b) = false := by
    rw [List.any_eq_false]
    intro x hx
    have := List.all_eq_true.mp h4b x hx
    simp [this]
  have hres : msg.restoreAsPath = (true, msg.asPathSegsTo4bFull (as4Collect segs4)) := by
    unfold BgpUpdateMessage.restoreAsPath
    rw [h2t, hp, h17t, h4]
    simp [hany]
  have hfull : (msg.asPathSegsTo4bFull (as4Collect segs4)).getAttrib AS_PATH
      = some (.as_path true [⟨.as_sequence, true,
          dropTrailingTrans (flattenSegs segs) ++ as4Collect segs4⟩]) := by
    unfold BgpUpdateMessage.asPathSegsTo4bFull
    rw [hp]
    show ({ msg with path_attribute := setFirstAttrib msg.path_attribute AS_PATH (.as_path true [⟨.as_sequence, true, dropTrailingTrans (flattenSegs segs) ++ as4Collect segs4⟩]) } : BgpUpdateMessage).getAttrib AS_PATH = _
    rw [BgpUpdateMessage.getAttrib]
    apply find?_setFirstAttrib_self msg.path_attribute AS_PATH
      (.as_path true [⟨.as_sequence, true, dropTrailingTrans (flattenSegs segs) ++ as4Collect segs4⟩]) rfl
    have hsome := getAttrib_isSome_of_has msg AS_PATH h2t
    rw [BgpUpdateMessage.getAttrib] at hsome
    exact hsome
  obtain ⟨k, hdecomp, hlast⟩ := dropTrailingTrans_spec (flattenSegs segs)
  refine ⟨by rw [hres], dropTrailingTrans (flattenSegs segs), k, hdecomp, hlast, ?_⟩
  rw [hres]
  rw [BgpUpdateMessage.asPathFlat, hfull]
  simp [flattenSegs]

/-- Witness for claim C7 at a concrete input: a 2-byte AS_PATH with one trailing
placeholder and an AS4_PATH restore successfully. -/
theorem restoreAsPath_replaces_trans_suffix_witness :
    ((⟨false, [BgpPathAttrib.as_path false [⟨.as_sequence, false, [5, 23456]⟩],
        .as4_path [⟨.as_sequence, true, [100, 200]⟩]]⟩ : BgpUpdateMessage).restoreAsPath).1
      = true :=
  (restoreAsPath_replaces_trans_suffix
    ⟨false, [BgpPathAttrib.as_path false [⟨.as_sequence, false, [5, 23456]⟩],
      .as4_path [⟨.as_sequence, true, [100, 200]⟩]]⟩
    [⟨.as_sequence, false, [5, 23456]⟩] [⟨.as_sequence, true, [100, 200]⟩]
    (by decide) (by decide) (by decide)).1

/-- Claim C5 evaluation: downgradeAsPath builds each 2-byte segment by
prepending in iteration order, so the ASN sequence comes out reversed: the
4-byte segment 10, 20 becomes the 2-byte segment 20, 10 rather than 10, 20,
while AS4_PATH keeps the original segments; on the all-large example 65536,
65537 the substitution to 23456 masks the reversal and the outbound shape of
the specification example holds. -/
theorem downgradeAsPath_reverses_segment_order :
    (BgpUpdateMessage.downgradeAsPath
        ⟨true, [.as_path true [⟨.as_sequence, true, [10, 20]⟩]]⟩) =
      (true, ⟨true, [.as_path true [⟨.as_sequence, false, [20, 10]⟩],
        .as4_path [⟨.as_sequence, true, [10, 20]⟩]]⟩)
    ∧ (BgpUpdateMessage.downgradeAsPath
        ⟨true, [.as_path true [⟨.as_sequence, true, [65536, 65537]⟩]]⟩) =
      (true, ⟨true, [.as_path true [⟨.as_sequence, false, [23456, 23456]⟩],
        .as4_path [⟨.as_sequence, true, [65536, 65537]⟩]]⟩) := by
  decide

/-- Claim C6 evaluation: downgradeAsPath leaves the is_4b flag of the AS_PATH
attribute true, so the following restoreAsPath rejects the message with the
AS_PATH-already-4-byte error and the original path is not recovered even though
every ASN is below 0xffff. -/
theorem restore_after_downgrade_fails :
    (BgpUpdateMessage.restoreAsPath
        (BgpUpdateMessage.downgradeAsPath
          ⟨true, [.as_path true [⟨.as_sequence, true, [10, 20]⟩]]⟩).2).1 = false
    ∧ (BgpUpdateMessage.restoreAsPath
        (BgpUpdateMessage.downgradeAsPath
          ⟨true, [.as_path true [⟨.as_sequence, true, [10, 20]⟩]]⟩).2).2
        ≠ ⟨true, [.as_path true [⟨.as_sequence, true, [10, 20]⟩]]⟩ := by
  decide
